import Mathlib

/-
Verification development for the YT_Summarizer repository (src/app.py).

The file shallowly embeds the three pieces of logic of the script:
  * get_video_id                 (src/app.py lines 51-95)
  * extract_transcript_text      (src/app.py lines 99-165)
  * generate_summary_with_gemini (src/app.py lines 168-201)

The URL parsing helpers model the CPython standard library functions the
script calls (urllib.parse.urlparse, parse_qs, str.split/lstrip, re.search
of the fixed pattern).  Strings are modelled as List Char; machine-level
byte/unicode details that the claims do not touch (UTF-8 recombination of
percent-escapes, non-ASCII case folding, NFKC netloc validation) are noted
at the definitions that simplify them.
-/

namespace YTS

/-- Character class of the identifier pattern [0-9A-Za-z_-] used by the
regex fallback in get_video_id. -/
def isIdChar (c : Char) : Bool :=
  c.isAlphanum || c = '_' || c = '-'

/-- Split a list at the first occurrence of c, dropping c itself.
Models str.split(c, 1) / str.find(c) followed by slicing. -/
def splitOnFirst (c : Char) : List Char → Option (List Char × List Char)
  | [] => none
  | x :: xs =>
    if x = c then some ([], xs)
    else (splitOnFirst c xs).map (fun p => (x :: p.1, p.2))

/-- Python str.split(sep) with a one-character separator: always returns a
non-empty list of (possibly empty) pieces. -/
def splitAllChar (c : Char) : List Char → List (List Char)
  | [] => [[]]
  | x :: xs =>
    let r := splitAllChar c xs
    if x = c then [] :: r else (x :: r.headD []) :: r.tail

/-- Everything strictly before the first occurrence of stop (the whole list
when stop does not occur); models str.partition(stop)[0] and split(stop)[0]. -/
def takeUntilChar (stop : Char) : List Char → List Char
  | [] => []
  | x :: xs => if x = stop then [] else x :: takeUntilChar stop xs

/-- Python str.lstrip(c) for a one-character strip set. -/
def dropLeadingChar (c : Char) : List Char → List Char
  | [] => []
  | x :: xs => if x = c then dropLeadingChar c xs else x :: xs

/-- Split at the last occurrence of c (str.rpartition-style). -/
def splitOnLast (c : Char) (l : List Char) : Option (List Char × List Char) :=
  (splitOnFirst c l.reverse).map (fun p => (p.2.reverse, p.1.reverse))

/-- The suffix after the last occurrence of c; the whole list when c does
not occur.  Models _, _, x = s.rpartition(c) as used for userinfo. -/
def afterLast (c : Char) (l : List Char) : List Char :=
  match splitOnLast c l with
  | some p => p.2
  | none => l

/-- C0 control characters and space, lstripped from the URL by urlsplit
(_WHATWG_C0_CONTROL_OR_SPACE). -/
def dropC0Space : List Char → List Char
  | [] => []
  | x :: xs => if x.toNat ≤ 32 then dropC0Space xs else x :: xs

/-- Remove the unsafe URL bytes tab/CR/LF everywhere, as urlsplit does. -/
def removeUnsafe : List Char → List Char
  | [] => []
  | x :: xs =>
    if x = '\t' ∨ x = '\r' ∨ x = '\n' then removeUnsafe xs
    else x :: removeUnsafe xs

/-- Characters allowed in a URL scheme after the first letter. -/
def isSchemeChar (c : Char) : Bool :=
  c.isAlphanum || c = '+' || c = '-' || c = '.'

/-- urllib.parse._splitnetloc: the netloc runs from position 2 to the first
of '/', '?' or '#'.  Returns (netloc, rest). -/
def splitNetloc : List Char → List Char × List Char
  | [] => ([], [])
  | x :: xs =>
    if x = '/' ∨ x = '?' ∨ x = '#' then ([], x :: xs)
    else
      let r := splitNetloc xs
      (x :: r.1, r.2)

/-- Result record of urlsplit (params not yet separated from the path). -/
structure SplitResult where
  scheme : List Char
  netloc : List Char
  path : List Char
  query : List Char
  fragment : List Char
deriving DecidableEq

/-- Fragment and query separation performed at the end of urlsplit. -/
def mkSplit (scheme netloc url3 : List Char) : SplitResult :=
  let fq : List Char × List Char :=
    match splitOnFirst '#' url3 with
    | some p => p
    | none => (url3, [])
  let pq : List Char × List Char :=
    match splitOnFirst '?' fq.1 with
    | some p => p
    | none => (fq.1, [])
  ⟨scheme, netloc, pq.1, pq.2, fq.2⟩

/-- urllib.parse.urlsplit on a list of characters.  The one exception path
the script can hit is the unbalanced-bracket check ("Invalid IPv6 URL"),
modelled as Except.error.  (Validation of the bracketed host's contents and
the NFKC netloc check concern non-ASCII input and are elided.) -/
def urlsplitList (url0 : List Char) : Except Unit SplitResult :=
  let url1 := removeUnsafe (dropC0Space url0)
  let sp : List Char × List Char :=
    match splitOnFirst ':' url1 with
    | some p =>
      if p.1 ≠ [] ∧ (p.1.headD ' ').isAlpha = true ∧ p.1.all isSchemeChar = true
      then (p.1.map Char.toLower, p.2)
      else ([], url1)
    | none => ([], url1)
  match sp.2 with
  | '/' :: '/' :: rest =>
    let nl := splitNetloc rest
    if (nl.1.contains '[' && !nl.1.contains ']')
        || (nl.1.contains ']' && !nl.1.contains '[') then .error ()
    else .ok (mkSplit sp.1 nl.1 nl.2)
  | other => .ok (mkSplit sp.1 [] other)

/-- urllib.parse._splitparams: split a ';' suffix off the last path
segment. -/
def splitParams (l : List Char) : List Char × List Char :=
  match splitOnLast '/' l with
  | some p =>
    (match splitOnFirst ';' p.2 with
     | some q => (p.1 ++ '/' :: q.1, q.2)
     | none => (l, []))
  | none =>
    (match splitOnFirst ';' l with
     | some q => (q.1, q.2)
     | none => (l, []))

/-- Result record of urlparse. -/
structure ParseResult where
  scheme : List Char
  netloc : List Char
  path : List Char
  params : List Char
  query : List Char
  fragment : List Char
deriving DecidableEq

/-- urllib.parse.urlparse: urlsplit plus params separation. -/
def urlparseList (url : List Char) : Except Unit ParseResult :=
  match urlsplitList url with
  | .error e => .error e
  | .ok r =>
    let pp := splitParams r.path
    .ok ⟨r.scheme, r.netloc, pp.1, pp.2, r.query, r.fragment⟩

/-- The hostname property of a parse result: strip userinfo and port,
honour brackets, lowercase, and turn the empty hostname into None.
(Case folding is ASCII, matching the claims' ASCII inputs.) -/
def hostnameOf (netloc : List Char) : Option (List Char) :=
  let hostinfo := afterLast '@' netloc
  let raw : List Char :=
    match splitOnFirst '[' hostinfo with
    | some p => takeUntilChar ']' p.2
    | none => takeUntilChar ':' hostinfo
  let h := raw.map Char.toLower
  if h = [] then none else some h

/-- Python str.replace("+", " ") applied before unquoting. -/
def replacePlus (l : List Char) : List Char :=
  l.map (fun c => if c = '+' then ' ' else c)

/-- Value of a hexadecimal digit. -/
def hexVal (c : Char) : Option Nat :=
  if '0' ≤ c ∧ c ≤ '9' then some (c.toNat - 48)
  else if 'A' ≤ c ∧ c ≤ 'F' then some (c.toNat - 55)
  else if 'a' ≤ c ∧ c ≤ 'f' then some (c.toNat - 87)
  else none

/-- Concatenation of a list of character lists. -/
def concatAll : List (List Char) → List Char
  | [] => []
  | x :: xs => x ++ concatAll xs

/-- Decoding of one piece between two '%' signs, as unquote does per split
item: its first two characters as a hex byte when valid, else the piece
kept literally behind its '%'. -/
def unquoteItem (item : List Char) : List Char :=
  match item with
  | a :: b :: rest =>
    (match hexVal a, hexVal b with
     | some x, some y => Char.ofNat (16 * x + y) :: rest
     | _, _ => '%' :: item)
  | _ => '%' :: item

/-- urllib.parse.unquote: split on '%' and decode each piece, leaving
malformed escapes in place.  (Each decoded byte becomes one character;
multi-byte UTF-8 recombination is elided — the claims only involve
ASCII.) -/
def unquoteList (l : List Char) : List Char :=
  match splitAllChar '%' l with
  | [] => []
  | first :: items => first ++ concatAll (items.map unquoteItem)

/-- urllib.parse.parse_qsl with the default keep_blank_values=False:
split on '&', keep fields that contain '=' and a non-empty raw value,
then '+'-replace and unquote names and values. -/
def parse_qsl (qs : List Char) : List (List Char × List Char) :=
  (splitAllChar '&' qs).filterMap fun nv =>
    if nv = [] then none
    else
      match splitOnFirst '=' nv with
      | none => none
      | some p =>
        if p.2 = [] then none
        else some (unquoteList (replacePlus p.1), unquoteList (replacePlus p.2))

/-- parse_qs(query).get(key, [None])[0]: the first value bound to key. -/
def getQueryParamFirst (key : List Char) (qs : List Char) : Option (List Char) :=
  (parse_qsl qs).findSome? fun p => if p.1 = key then some p.2 else none

/-- Attempt of the regex fallback at one position: exactly 11 characters of
the identifier class. -/
def matchId11 (l : List Char) : Option (List Char) :=
  let pre := l.take 11
  if pre.length = 11 ∧ pre.all isIdChar = true then some pre else none

/-- Attempt of the alternative "v=" at one position: succeeds when the
current character is 'v', the next is '=', and 11 identifier characters
follow. -/
def vAttempt (c : Char) (rest : List Char) : Option (List Char) :=
  match c, rest with
  | 'v', '=' :: rest2 => matchId11 rest2
  | _, _ => none

/-- Attempt of the alternative "/" at one position. -/
def slashAttempt (c : Char) (rest : List Char) : Option (List Char) :=
  if c = '/' then matchId11 rest else none

/-- re.search of the pattern (?:v=|/)([0-9A-Za-z_-]{11}): leftmost position
at which "v=" or "/" is followed by 11 identifier characters; the capture
group is returned.  (A failed "v=" attempt advances by one character, so
the scan continues at the tail either way.) -/
def regexSearchVid : List Char → Option (List Char)
  | [] => none
  | c :: rest =>
    match vAttempt c rest with
    | some r => some r
    | none =>
      match slashAttempt c rest with
      | some r => some r
      | none => regexSearchVid rest

/-- List version of str.startswith. -/
def startsWithList : List Char → List Char → Bool
  | [], _ => true
  | _ :: _, [] => false
  | a :: as, b :: bs => if a = b then startsWithList as bs else false

/-- Python substring containment (needle in haystack). -/
def containsSub (needle : List Char) : List Char → Bool
  | [] => needle.isEmpty
  | a :: rest => startsWithList needle (a :: rest) || containsSub needle rest

/-- The youtu.be rule of get_video_id: first path segment after lstrip,
accepted when 11 characters long. -/
def beStep (host path : List Char) : Option (List Char) :=
  if host = "youtu.be".data ∨ host = "www.youtu.be".data then
    let vid := takeUntilChar '/' (dropLeadingChar '/' path)
    if vid.length = 11 then some vid else none
  else none

/-- The /watch rule of get_video_id: first v query parameter, accepted when
truthy and 11 characters long. -/
def watchStep (path query : List Char) : Option (List Char) :=
  if path = "/watch".data then
    match getQueryParamFirst "v".data query with
    | some vid => if vid.length = 11 then some vid else none
    | none => none
  else none

/-- The /shorts/ and /embed/ rules of get_video_id: the path's third
split("/") piece, accepted when it exists and is 11 characters long. -/
def pathSegStep (marker path : List Char) : Option (List Char) :=
  if startsWithList marker path = true then
    match (splitAllChar '/' path).drop 2 with
    | p2 :: _ => if p2.length = 11 then some p2 else none
    | [] => none
  else none

/-- The ordered shape rules of get_video_id (everything before the regex
fallback), first match wins. -/
def shapeStep (host path query : List Char) : Option (List Char) :=
  match beStep host path with
  | some v => some v
  | none =>
    if containsSub "youtube".data host = true then
      match watchStep path query with
      | some v => some v
      | none =>
        match pathSegStep "/shorts/".data path with
        | some v => some v
        | none => pathSegStep "/embed/".data path
    else none

/-- get_video_id from src/app.py: the ordered recognition rules (youtu.be
host, /watch with v query parameter, /shorts/, /embed/) followed by the
regex fallback on the raw URL; a raised parse error yields None without
running the fallback (the try wraps the whole body).  It is a pure total
function: the embedding has no effects. -/
def get_video_id (url : String) : Option String :=
  match urlparseList url.data with
  | .error _ => none
  | .ok p =>
    let host := ((hostnameOf p.netloc).getD []).map Char.toLower
    match shapeStep host p.path p.query with
    | some v => some (String.mk v)
    | none => (regexSearchVid url.data).map String.mk

/-- A caption fragment returned by the transcript service; chunk.get("text", "")
reads an optional text field with default "". -/
structure Fragment where
  text : Option String
deriving DecidableEq

/-- chunk.get("text", ""). -/
def chunkText (f : Fragment) : String := f.text.getD ""

/-- " ".join(chunk.get("text", "") for chunk in items). -/
def joinFragments (items : List Fragment) : String :=
  String.intercalate " " (items.map chunkText)

/-- The youtube-transcript-api exception types distinguished by
extract_transcript_text; msg models str(e) for the ones whose message is
shown. -/
inductive TranscriptError where
  | noTranscriptFound
  | transcriptsDisabled
  | videoUnavailable (msg : String)
  | tooManyRequests (msg : String)
  | other (msg : String)
deriving DecidableEq

/-- A transcript object of the list_transcripts path.  translateFetch is the
outcome of tr.translate("en") followed by tr_en.fetch() (none when either
raises; both raises are caught by the same except); fetchResult is the
outcome of tr.fetch() (none when it raises). -/
structure TranscriptObj where
  translateFetch : Option (List Fragment)
  fetchResult : Option (List Fragment)
deriving DecidableEq

/-- Outcome of YouTubeTranscriptApi.list_transcripts: found models
tl.find_transcript(languages) (none when it raises), transcripts the
iteration order of tl. -/
structure TranscriptList where
  found : Option TranscriptObj
  transcripts : List TranscriptObj
deriving DecidableEq

/-- The external transcript service: which attributes the installed library
exposes and what each call returns or raises for the requested video. -/
structure TranscriptService where
  hasGetTranscript : Bool
  getTranscript : Except TranscriptError (List Fragment)
  hasListTranscripts : Bool
  listTranscripts : Except TranscriptError TranscriptList

/-- A streamlit user-facing message: st.warning or st.error. -/
inductive UIMsg where
  | warning (s : String)
  | error (s : String)
deriving DecidableEq

/-- Which external transcript strategies were invoked, in order. -/
inductive StrategyCall where
  | getTranscriptCall
  | listTranscriptsCall
deriving DecidableEq

/-- Observable outcome of extract_transcript_text: returned value, messages
shown, and the trace of strategy invocations. -/
structure ResolverOutput where
  result : Option String
  msgs : List UIMsg
  calls : List StrategyCall
deriving DecidableEq

/-- The for-tr-in-tl loop: per transcript, try translate-to-English plus
fetch; if that raises, try the transcript's own fetch; on both raising,
continue with the next transcript. -/
def translateLoop : List TranscriptObj → Option String
  | [] => none
  | tr :: rest =>
    match tr.translateFetch with
    | some frags => some (joinFragments frags)
    | none =>
      match tr.fetchResult with
      | some frags => some (joinFragments frags)
      | none => translateLoop rest

/-- The list_transcripts body: find_transcript plus fetch, falling into the
translate loop when either raises; none means the final
raise NoTranscriptFound(video_id) is reached. -/
def listPathResult (tl : TranscriptList) : Option String :=
  match tl.found with
  | some tr =>
    (match tr.fetchResult with
     | some frags => some (joinFragments frags)
     | none => translateLoop tl.transcripts)
  | none => translateLoop tl.transcripts

/-- The outer except clauses of extract_transcript_text: warning for
NoTranscriptFound/TranscriptsDisabled, error with the exception text for
VideoUnavailable/TooManyRequests, unexpected-error message otherwise. -/
def classifyError (e : TranscriptError) : UIMsg :=
  match e with
  | .noTranscriptFound => .warning "Transcript is not available for this video."
  | .transcriptsDisabled => .warning "Transcript is not available for this video."
  | .videoUnavailable m => .error ("VideoUnavailable: " ++ m)
  | .tooManyRequests m => .error ("TooManyRequests: " ++ m)
  | .other m => .error ("Unexpected error while fetching transcript: " ++ m)

/-- The message shown when the installed library exposes neither method. -/
def installMsg : String :=
  "Your installed `youtube-transcript-api` does not expose `get_transcript` or `list_transcripts`.\n\nPlease update it:\n  pip install -U youtube-transcript-api"

/-- Path B of extract_transcript_text (and the no-capability error),
entered after the direct path fell through; calls0 is the trace so far. -/
def afterDirect (svc : TranscriptService) (calls0 : List StrategyCall) :
    ResolverOutput :=
  if svc.hasListTranscripts then
    let calls := calls0 ++ [.listTranscriptsCall]
    match svc.listTranscripts with
    | .error e => ⟨none, [classifyError e], calls⟩
    | .ok tl =>
      match listPathResult tl with
      | some s => ⟨some s, [], calls⟩
      | none => ⟨none, [classifyError .noTranscriptFound], calls⟩
  else ⟨none, [.error installMsg], calls0⟩

/-- extract_transcript_text from src/app.py: id extraction, direct
get_transcript with the English language list (falling through to the
list_transcripts path exactly on NoTranscriptFound/TranscriptsDisabled),
and the outer exception classification. -/
def extract_transcript_text (svc : TranscriptService) (youtube_url : String) :
    ResolverOutput :=
  match get_video_id youtube_url with
  | none => ⟨none, [.error "Invalid YouTube URL. Please enter a valid video link."], []⟩
  | some _ =>
    if svc.hasGetTranscript then
      match svc.getTranscript with
      | .ok items => ⟨some (joinFragments items), [], [.getTranscriptCall]⟩
      | .error .noTranscriptFound => afterDirect svc [.getTranscriptCall]
      | .error .transcriptsDisabled => afterDirect svc [.getTranscriptCall]
      | .error e => ⟨none, [classifyError e], [.getTranscriptCall]⟩
    else afterDirect svc []

/-- A part of a generation response candidate; text models
getattr(p, "text", None). -/
structure GenPart where
  text : Option String
deriving DecidableEq

/-- A response candidate; partsResult is none when accessing
c.content.parts raises (the per-candidate try/except). -/
structure Candidate where
  partsResult : Option (List GenPart)
deriving DecidableEq

/-- A generation response: the optional direct text field (hasattr check)
and the optional candidates list (getattr with default None). -/
structure GenResponse where
  text : Option String
  candidates : Option (List Candidate)
deriving DecidableEq

/-- The external generation service: constructing the model and calling
generate_content for a given model name and payload either raises or
returns a response. -/
structure GenService where
  respond : String → String → Except String GenResponse

/-- The fixed summarization prompt of src/app.py. -/
def PROMPT : String :=
  "You are a YouTube video summarizer. Summarize the entire transcript into clear bullet points (~250 words). Focus on key ideas, steps, definitions, and any takeaways.\n\nTranscript:\n"

/-- The ordered model identifiers attempted. -/
def MODEL_NAMES : List String := ["gemini-1.5-flash", "gemini-pro"]

/-- hasattr(resp, "text") and resp.text: the direct text field when present
and non-empty. -/
def respDirectText (resp : GenResponse) : Option String :=
  match resp.text with
  | some t => if t = "" then none else some t
  | none => none

/-- The parts collection loop: all non-empty part texts across candidates,
skipping candidates whose content.parts access raises. -/
def collectPartTexts : List Candidate → List String
  | [] => []
  | c :: rest =>
    (match c.partsResult with
     | none => []
     | some ps =>
       ps.filterMap fun p =>
         match p.text with
         | some t => if t = "" then none else some t
         | none => none) ++ collectPartTexts rest

/-- The candidates fallback: requires a truthy candidates list and a
non-empty collected parts list, joined by newlines. -/
def respCandidatesText (resp : GenResponse) : Option String :=
  match resp.candidates with
  | some cs =>
    if cs = [] then none
    else
      (match collectPartTexts cs with
       | [] => none
       | parts => some (String.intercalate "\n" parts))
  | none => none

/-- Text extracted from one response: direct field first, candidates
fallback second. -/
def extractRespText (resp : GenResponse) : Option String :=
  match respDirectText resp with
  | some t => some t
  | none => respCandidatesText resp

/-- Text obtained from one model attempt: none when the call raises or the
response yields no text. -/
def attemptResult (svc : GenService) (payload : String) (m : String) :
    Option String :=
  match svc.respond m payload with
  | .error _ => none
  | .ok resp => extractRespText resp

/-- Observable outcome of generate_summary_with_gemini: returned value,
generation calls made (model name and payload, in order), messages shown. -/
structure GenOutput where
  result : Option String
  calls : List (String × String)
  msgs : List UIMsg
deriving DecidableEq

/-- The for-model_name-in-[...] loop, also recording the calls made. -/
def tryModels (svc : GenService) (payload : String) :
    List String → Option String × List (String × String)
  | [] => (none, [])
  | m :: rest =>
    match attemptResult svc payload m with
    | some t => (some t, [(m, payload)])
    | none =>
      let r := tryModels svc payload rest
      (r.1, (m, payload) :: r.2)

/-- generate_summary_with_gemini from src/app.py: empty input returns None
before any model is constructed; otherwise the models are attempted in
order on PROMPT ++ transcript and the first extracted text is returned;
exhaustion shows the failure error and returns None.  (The Python
parameter is a str; the absent/None input also fails the same truthiness
test and is represented by "".) -/
def generate_summary_with_gemini (svc : GenService) (transcript_text : String) :
    GenOutput :=
  if transcript_text = "" then ⟨none, [], []⟩
  else
    let r := tryModels svc (PROMPT ++ transcript_text) MODEL_NAMES
    match r.1 with
    | some t => ⟨some t, r.2, []⟩
    | none => ⟨none, r.2, [.error "Gemini summarization failed. Please check your API key and model access."]⟩

/-- Example transcript whose translation raises but whose own fetch
succeeds. -/
def trOrig : TranscriptObj := ⟨none, some [⟨some "orig1"⟩]⟩

/-- Example transcript whose translation succeeds. -/
def trTrans : TranscriptObj := ⟨some [⟨some "trans2"⟩], some [⟨some "trans2"⟩]⟩

/-- Example transcript list: no direct language match; an untranslatable
transcript precedes a translatable one. -/
def tlMixed : TranscriptList := ⟨none, [trOrig, trTrans]⟩

/-- Example service reaching the list path with tlMixed. -/
def svcMixed : TranscriptService := ⟨false, .error .noTranscriptFound, true, .ok tlMixed⟩

/-- Example transcript whose translation succeeds at once. -/
def trOnly : TranscriptObj := ⟨some [⟨some "translated text"⟩], none⟩

/-- Example transcript list holding only trOnly. -/
def tlOnly : TranscriptList := ⟨none, [trOnly]⟩

/-- Example service reaching the list path with tlOnly. -/
def svcOnly : TranscriptService := ⟨false, .error .noTranscriptFound, true, .ok tlOnly⟩

/-- Example service whose direct fetch succeeds with two fragments. -/
def svcDirect : TranscriptService :=
  ⟨true, .ok [⟨some "hello"⟩, ⟨some "world"⟩], false, .error .noTranscriptFound⟩

/-- Example service whose direct fetch raises VideoUnavailable. -/
def svcUnavailable : TranscriptService :=
  ⟨true, .error (.videoUnavailable "video is gone"), false, .error .noTranscriptFound⟩

/-- Example service where the direct fetch raises NoTranscriptFound and the
list path exists but is empty. -/
def svcFallthrough : TranscriptService :=
  ⟨true, .error .noTranscriptFound, true, .ok ⟨none, []⟩⟩

/-- Example generation service where the fast model raises and the legacy
model returns text. -/
def svcSecondModel : GenService :=
  ⟨fun m _ =>
    if m = "gemini-1.5-flash" then .error "quota exhausted"
    else .ok ⟨some "second model text", none⟩⟩

theorem splitOnFirst_nil (c : Char) : splitOnFirst c [] = none := rfl

theorem splitOnFirst_cons (c x : Char) (xs : List Char) :
    splitOnFirst c (x :: xs) =
      if x = c then some ([], xs)
      else (splitOnFirst c xs).map (fun p => (x :: p.1, p.2)) := rfl

theorem idChar_not_mem {l : List Char} (h : ∀ c ∈ l, isIdChar c = true)
    {x : Char} (hx : isIdChar x = false) : x ∉ l := by
  intro hm
  rw [h x hm] at hx
  cases hx

theorem splitOnFirst_eq_none {c : Char} {l : List Char} (h : c ∉ l) :
    splitOnFirst c l = none := by
  induction l with
  | nil => rfl
  | cons x xs ih =>
    have hx : ¬(x = c) := by
      rintro rfl
      exact h (List.mem_cons_self x xs)
    rw [splitOnFirst_cons, if_neg hx, ih (fun hm => h (List.mem_cons_of_mem x hm))]
    rfl

theorem splitOnFirst_append_left {c : Char} {a : List Char} (h : c ∉ a)
    (b : List Char) :
    splitOnFirst c (a ++ b) = (splitOnFirst c b).map (fun p => (a ++ p.1, p.2)) := by
  induction a with
  | nil =>
    cases hb : splitOnFirst c b <;> simp [hb]
  | cons x xs ih =>
    have hx : ¬(x = c) := by
      rintro rfl
      exact h (List.mem_cons_self x xs)
    rw [List.cons_append, splitOnFirst_cons, if_neg hx,
      ih (fun hm => h (List.mem_cons_of_mem x hm))]
    cases hb : splitOnFirst c b <;> simp

theorem splitAllChar_eq_single {c : Char} {l : List Char} (h : c ∉ l) :
    splitAllChar c l = [l] := by
  induction l with
  | nil => rfl
  | cons x xs ih =>
    have hx : ¬(x = c) := by
      rintro rfl
      exact h (List.mem_cons_self x xs)
    rw [splitAllChar, ih (fun hm => h (List.mem_cons_of_mem x hm))]
    simp [hx]

theorem takeUntilChar_eq_self {stop : Char} {l : List Char} (h : stop ∉ l) :
    takeUntilChar stop l = l := by
  induction l with
  | nil => rfl
  | cons x xs ih =>
    have hx : ¬(x = stop) := by
      rintro rfl
      exact h (List.mem_cons_self x xs)
    rw [takeUntilChar, if_neg hx, ih (fun hm => h (List.mem_cons_of_mem x hm))]

theorem removeUnsafe_eq_self {l : List Char} (h : ∀ c ∈ l, isIdChar c = true) :
    removeUnsafe l = l := by
  induction l with
  | nil => rfl
  | cons x xs ih =>
    have hx := h x (List.mem_cons_self x xs)
    have hcond : ¬(x = '\t' ∨ x = '\r' ∨ x = '\n') := by
      rintro (rfl | rfl | rfl) <;> cases hx
    rw [removeUnsafe, if_neg hcond, ih (fun c hm => h c (List.mem_cons_of_mem x hm))]

theorem replacePlus_eq_self {l : List Char} (h : ∀ c ∈ l, isIdChar c = true) :
    replacePlus l = l := by
  induction l with
  | nil => rfl
  | cons x xs ih =>
    have hx := h x (List.mem_cons_self x xs)
    have hcond : ¬(x = '+') := by
      rintro rfl
      cases hx
    rw [replacePlus] at ih ⊢
    simp [hcond, ih (fun c hm => h c (List.mem_cons_of_mem x hm))]

theorem unquoteList_eq_self {l : List Char} (h : ∀ c ∈ l, isIdChar c = true) :
    unquoteList l = l := by
  rw [unquoteList, splitAllChar_eq_single (idChar_not_mem h (by decide))]
  simp [concatAll]

theorem strData_append (a b : String) : (a ++ b).data = a.data ++ b.data := rfl

theorem strMk_data (s : String) : String.mk s.data = s := rfl

theorem strLength_data (s : String) : s.length = s.data.length := rfl

theorem matchId11_len {l r : List Char} (h : matchId11 l = some r) :
    r.length = 11 := by
  rw [matchId11] at h
  split at h
  · cases h
    rename_i hc
    exact hc.1
  · cases h

theorem vAttempt_len {c : Char} {rest r : List Char} (h : vAttempt c rest = some r) :
    r.length = 11 := by
  unfold vAttempt at h
  split at h
  · exact matchId11_len h
  · cases h

theorem slashAttempt_len {c : Char} {rest r : List Char}
    (h : slashAttempt c rest = some r) : r.length = 11 := by
  unfold slashAttempt at h
  split at h
  · exact matchId11_len h
  · cases h

theorem regexSearchVid_len {l r : List Char} (h : regexSearchVid l = some r) :
    r.length = 11 := by
  induction l with
  | nil => cases h
  | cons x xs ih =>
    rw [regexSearchVid] at h
    cases hv : vAttempt x xs with
    | some rv =>
      rw [hv] at h
      cases h
      exact vAttempt_len hv
    | none =>
      rw [hv] at h
      cases hs : slashAttempt x xs with
      | some rs =>
        rw [hs] at h
        cases h
        exact slashAttempt_len hs
      | none =>
        rw [hs] at h
        exact ih h

theorem beStep_len {host path v : List Char} (h : beStep host path = some v) :
    v.length = 11 := by
  simp only [beStep] at h
  split at h
  · split at h
    · cases h
      assumption
    · cases h
  · cases h

theorem watchStep_len {path query v : List Char} (h : watchStep path query = some v) :
    v.length = 11 := by
  simp only [watchStep] at h
  split at h
  · split at h
    · split at h
      · cases h
        assumption
      · cases h
    · cases h
  · cases h

theorem pathSegStep_len {marker path v : List Char}
    (h : pathSegStep marker path = some v) : v.length = 11 := by
  simp only [pathSegStep] at h
  split at h
  · split at h
    · split at h
      · cases h
        assumption
      · cases h
    · cases h
  · cases h

theorem shapeStep_len {host path query v : List Char}
    (h : shapeStep host path query = some v) : v.length = 11 := by
  simp only [shapeStep] at h
  split at h
  · rename_i v0 heq
    cases h
    exact beStep_len heq
  · split at h
    · split at h
      · rename_i v0 heq
        cases h
        exact watchStep_len heq
      · split at h
        · rename_i v0 heq
          cases h
          exact pathSegStep_len heq
        · exact pathSegStep_len h
    · cases h

theorem get_video_id_none_or_len11 (url : String) :
    get_video_id url = none ∨ ∃ s, get_video_id url = some s ∧ s.length = 11 := by
  cases hp : urlparseList url.data with
  | error e =>
    left
    unfold get_video_id
    rw [hp]
  | ok p =>
    cases hs : shapeStep (((hostnameOf p.netloc).getD []).map Char.toLower)
        p.path p.query with
    | some v =>
      right
      refine ⟨String.mk v, ?_, shapeStep_len hs⟩
      unfold get_video_id
      rw [hp]
      simp only [hs]
    | none =>
      cases hr : regexSearchVid url.data with
      | none =>
        left
        unfold get_video_id
        rw [hp]
        simp only [hs, hr]
        rfl
      | some r =>
        right
        refine ⟨String.mk r, ?_, regexSearchVid_len hr⟩
        unfold get_video_id
        rw [hp]
        simp only [hs, hr]
        rfl

/-- C9: get_video_id is total over arbitrary strings: it returns either an
11-character identifier or None, a parse error (the one raise reachable in
the modelled urlparse) is normalized to None rather than propagated, and
the embedding is a pure function (no side effects). -/
theorem c9_get_video_id_total (url : String) :
    (get_video_id url = none ∨ ∃ s, get_video_id url = some s ∧ s.length = 11) ∧
    (urlparseList url.data = .error () → get_video_id url = none) := by
  refine ⟨get_video_id_none_or_len11 url, fun h => ?_⟩
  unfold get_video_id
  rw [h]

/-- C9 witness: at a URL whose netloc has an unbalanced bracket, urlparse
raises and get_video_id returns None. -/
theorem c9_witness :
    get_video_id "https://exa[mple.com/abcdefghijk" = none :=
  (c9_get_video_id_total "https://exa[mple.com/abcdefghijk").2 rfl

/-- C2 counterexample: a URL whose host is not a YouTube host for which
get_video_id does not return None — the regex fallback extracts the
11-character token after the slash. -/
theorem c2_counterexample :
    get_video_id "https://vimeo.com/abcdefghijk" = some "abcdefghijk" ∧
    some "abcdefghijk" ≠ (none : Option String) := by
  constructor
  · decide
  · intro h
    cases h

/-- C2 amended: get_video_id never raises and always returns either None or
an 11-character identifier; the empty string yields None.  (The original
claim fails for non-YouTube hosts and over-length identifiers, which the
last-resort regex fallback can still match.) -/
theorem c2_malformed_amended (url : String) :
    get_video_id "" = none ∧
    (get_video_id url = none ∨ ∃ s, get_video_id url = some s ∧ s.length = 11) :=
  ⟨by decide, get_video_id_none_or_len11 url⟩

/-- C5: on empty (or absent, which fails the same truthiness test)
transcript input, generate_summary_with_gemini returns the no-input
failure None immediately, with no model attempted and no message shown,
for every generation service. -/
theorem c5_empty_input_no_service_call (svc : GenService) :
    generate_summary_with_gemini svc "" = ⟨none, [], []⟩ := rfl

/-- C10: on a watch URL whose v parameter is a 12-character token, the
shape rule rejects the token but the regex fallback returns its first 11
characters. -/
theorem c10_overlength_truncated_by_fallback :
    watchStep "/watch".data ('v' :: '=' :: "abcdefghijkl".data) = none ∧
    get_video_id "https://www.youtube.com/watch?v=abcdefghijkl" = some "abcdefghijk" ∧
    "abcdefghijk".data = "abcdefghijkl".data.take 11 := by
  decide

theorem afterDirect_calls (svc : TranscriptService) (cs : List StrategyCall) :
    (afterDirect svc cs).calls =
      if svc.hasListTranscripts then cs ++ [.listTranscriptsCall] else cs := by
  unfold afterDirect
  split
  · cases hlt : svc.listTranscripts with
    | error e => simp [hlt]
    | ok tl =>
      cases hl : listPathResult tl <;> simp [hlt, hl]
  · rfl

theorem translateLoop_append_none {pre : List TranscriptObj}
    (h : ∀ t ∈ pre, t.translateFetch = none ∧ t.fetchResult = none)
    (l : List TranscriptObj) : translateLoop (pre ++ l) = translateLoop l := by
  induction pre with
  | nil => rfl
  | cons t ts ih =>
    have ht := h t (List.mem_cons_self t ts)
    rw [List.cons_append, translateLoop, ht.1, ht.2,
      ih (fun u hu => h u (List.mem_cons_of_mem t hu))]

/-- C6: when the direct transcript fetch succeeds, the resolver returns the
fragment texts joined in returned order with single spaces, with no
warning or error shown. -/
theorem c6_direct_fetch_join (svc : TranscriptService) (url vid : String)
    (items : List Fragment)
    (hvid : get_video_id url = some vid)
    (hga : svc.hasGetTranscript = true)
    (hok : svc.getTranscript = .ok items) :
    extract_transcript_text svc url =
      ⟨some (String.intercalate " " (items.map chunkText)), [], [.getTranscriptCall]⟩ := by
  unfold extract_transcript_text
  rw [hvid, hga, hok]
  rfl

/-- C6 witness: a concrete service with fragments "hello" and "world"
yields "hello world". -/
theorem c6_witness :
    extract_transcript_text svcDirect "https://youtu.be/dQw4w9WgXcQ" =
      ⟨some "hello world", [], [.getTranscriptCall]⟩ :=
  (c6_direct_fetch_join svcDirect "https://youtu.be/dQw4w9WgXcQ" "dQw4w9WgXcQ"
    [⟨some "hello"⟩, ⟨some "world"⟩] (by decide) rfl rfl).trans (by decide)

/-- C7: the resolver classifies every failure and returns None instead of
raising: disabled and not-found outcomes are a soft warning, unavailable
and rate-limited are hard errors carrying the exception text, and any
other exception is an unexpected error with its message.  The cases cover
both the direct path and the list path. -/
theorem c7_failure_classification (svc : TranscriptService) (url vid m : String)
    (hvid : get_video_id url = some vid)
    (hga : svc.hasGetTranscript = true) :
    (svc.getTranscript = .error (.videoUnavailable m) →
      extract_transcript_text svc url =
        ⟨none, [.error ("VideoUnavailable: " ++ m)], [.getTranscriptCall]⟩) ∧
    (svc.getTranscript = .error (.tooManyRequests m) →
      extract_transcript_text svc url =
        ⟨none, [.error ("TooManyRequests: " ++ m)], [.getTranscriptCall]⟩) ∧
    (svc.getTranscript = .error (.other m) →
      extract_transcript_text svc url =
        ⟨none, [.error ("Unexpected error while fetching transcript: " ++ m)],
          [.getTranscriptCall]⟩) ∧
    (svc.hasListTranscripts = true → svc.getTranscript = .error .noTranscriptFound →
      svc.listTranscripts = .error .transcriptsDisabled →
      extract_transcript_text svc url =
        ⟨none, [.warning "Transcript is not available for this video."],
          [.getTranscriptCall, .listTranscriptsCall]⟩) ∧
    (∀ tl, svc.hasListTranscripts = true →
      svc.getTranscript = .error .transcriptsDisabled →
      svc.listTranscripts = .ok tl → listPathResult tl = none →
      extract_transcript_text svc url =
        ⟨none, [.warning "Transcript is not available for this video."],
          [.getTranscriptCall, .listTranscriptsCall]⟩) := by
  refine ⟨fun h => ?_, fun h => ?_, fun h => ?_, fun hl h1 h2 => ?_,
    fun tl hl h1 h2 h3 => ?_⟩
  · unfold extract_transcript_text
    rw [hvid, hga, h]
    rfl
  · unfold extract_transcript_text
    rw [hvid, hga, h]
    rfl
  · unfold extract_transcript_text
    rw [hvid, hga, h]
    rfl
  · unfold extract_transcript_text
    rw [hvid, hga, h1]
    simp [afterDirect, hl, h2, classifyError]
  · unfold extract_transcript_text
    rw [hvid, hga, h1]
    simp [afterDirect, hl, h2, h3, classifyError]

/-- C7 witness: a service raising VideoUnavailable produces the hard error
with the exception text and result None. -/
theorem c7_witness :
    extract_transcript_text svcUnavailable "https://youtu.be/dQw4w9WgXcQ" =
      ⟨none, [.error "VideoUnavailable: video is gone"], [.getTranscriptCall]⟩ :=
  ((c7_failure_classification svcUnavailable "https://youtu.be/dQw4w9WgXcQ"
    "dQw4w9WgXcQ" "video is gone" (by decide) rfl).1 rfl).trans (by decide)

/-- C8: a NoTranscriptFound or TranscriptsDisabled raise of the direct
fetch is not fatal: the list strategy is attempted next (when the library
exposes it) before any failure is reported, and on every input each
strategy is invoked at most once. -/
theorem c8_fallthrough_single_attempts (svc : TranscriptService) (url vid : String)
    (hvid : get_video_id url = some vid)
    (hga : svc.hasGetTranscript = true)
    (he : svc.getTranscript = .error .noTranscriptFound ∨
      svc.getTranscript = .error .transcriptsDisabled) :
    ((extract_transcript_text svc url).calls =
      if svc.hasListTranscripts then [.getTranscriptCall, .listTranscriptsCall]
      else [.getTranscriptCall]) ∧
    (∀ (svc2 : TranscriptService) (url2 : String),
      (extract_transcript_text svc2 url2).calls = [] ∨
      (extract_transcript_text svc2 url2).calls = [.getTranscriptCall] ∨
      (extract_transcript_text svc2 url2).calls = [.listTranscriptsCall] ∨
      (extract_transcript_text svc2 url2).calls =
        [.getTranscriptCall, .listTranscriptsCall]) := by
  constructor
  · have hcalls : extract_transcript_text svc url = afterDirect svc [.getTranscriptCall] := by
      unfold extract_transcript_text
      rcases he with h | h <;> (rw [hvid, hga, h]; rfl)
    rw [hcalls, afterDirect_calls]
    split <;> rfl
  · intro svc2 url2
    unfold extract_transcript_text
    cases hv : get_video_id url2 with
    | none => simp
    | some v =>
      have hAD : ∀ cs, (afterDirect svc2 cs).calls = cs ∨
          (afterDirect svc2 cs).calls = cs ++ [.listTranscriptsCall] := by
        intro cs
        rw [afterDirect_calls]
        split
        · right
          rfl
        · left
          rfl
      by_cases hg : svc2.hasGetTranscript
      · rw [if_pos hg]
        cases hgt : svc2.getTranscript with
        | ok items => simp
        | error e =>
          cases e with
          | noTranscriptFound =>
            rcases hAD [.getTranscriptCall] with h | h <;> simp [h]
          | transcriptsDisabled =>
            rcases hAD [.getTranscriptCall] with h | h <;> simp [h]
          | videoUnavailable m => simp
          | tooManyRequests m => simp
          | other m => simp
      · rw [if_neg hg]
        rcases hAD [] with h | h <;> simp [h]

/-- C8 witness: direct fetch raises NoTranscriptFound and the list strategy
exists, so both strategies are attempted exactly once, in order. -/
theorem c8_witness :
    (extract_transcript_text svcFallthrough "https://youtu.be/dQw4w9WgXcQ").calls =
      [.getTranscriptCall, .listTranscriptsCall] :=
  ((c8_fallthrough_single_attempts svcFallthrough "https://youtu.be/dQw4w9WgXcQ"
    "dQw4w9WgXcQ" (by decide) rfl (Or.inl rfl)).1).trans (by decide)

/-- C3 counterexample: in the list path, with an untranslatable transcript
listed before a translatable one, the resolver returns the first
transcript's original-language text even though a transcript whose
translation succeeds exists, contradicting the claim that translation is
attempted on every available transcript before any original-language
fallback. -/
theorem c3_counterexample :
    (extract_transcript_text svcMixed "https://youtu.be/dQw4w9WgXcQ").result =
      some "orig1" ∧
    trTrans.translateFetch = some [⟨some "trans2"⟩] ∧
    tlMixed.transcripts = [trOrig, trTrans] ∧
    ¬((extract_transcript_text svcMixed "https://youtu.be/dQw4w9WgXcQ").result =
      some "trans2") := by
  decide

/-- C3 amended: in the list path with no direct language match, the
transcripts are processed in order; for each one, translation to English
is attempted first and its text returned on success, and on a translation
failure that same transcript's original-language fetch is attempted and
returned on success, before moving to the next transcript. -/
theorem c3_translate_waterfall_amended (svc : TranscriptService) (url vid : String)
    (tl : TranscriptList) (pre rest : List TranscriptObj) (tr : TranscriptObj)
    (hvid : get_video_id url = some vid)
    (hga : svc.hasGetTranscript = false)
    (hls : svc.hasListTranscripts = true)
    (hok : svc.listTranscripts = .ok tl)
    (hfind : tl.found = none)
    (htrs : tl.transcripts = pre ++ tr :: rest)
    (hpre : ∀ t ∈ pre, t.translateFetch = none ∧ t.fetchResult = none) :
    (∀ frags, tr.translateFetch = some frags →
      (extract_transcript_text svc url).result = some (joinFragments frags)) ∧
    (∀ frags, tr.translateFetch = none → tr.fetchResult = some frags →
      (extract_transcript_text svc url).result = some (joinFragments frags)) := by
  have hbase : extract_transcript_text svc url = afterDirect svc [] := by
    unfold extract_transcript_text
    rw [hvid, hga]
    rfl
  have hlist : ∀ frags, translateLoop (tr :: rest) = some (joinFragments frags) →
      (extract_transcript_text svc url).result = some (joinFragments frags) := by
    intro frags hl
    rw [hbase]
    simp [afterDirect, hls, hok, listPathResult, hfind, htrs,
      translateLoop_append_none hpre, hl]
  constructor
  · intro frags htf
    exact hlist frags (by rw [translateLoop, htf])
  · intro frags htf hfr
    exact hlist frags (by rw [translateLoop, htf, hfr])

/-- C3 witness for the amended claim: a single transcript whose translation
succeeds yields the translated text. -/
theorem c3_witness :
    (extract_transcript_text svcOnly "https://youtu.be/dQw4w9WgXcQ").result =
      some "translated text" :=
  ((c3_translate_waterfall_amended svcOnly "https://youtu.be/dQw4w9WgXcQ"
      "dQw4w9WgXcQ" tlOnly [] [] trOnly (by decide) rfl rfl rfl rfl rfl
      (fun t ht => absurd ht (List.not_mem_nil t))).1
    [⟨some "translated text"⟩] rfl).trans (by decide)

theorem tryModels_two (svc : GenService) (p a b : String) :
    (tryModels svc p [a, b]).1 =
      (match attemptResult svc p a with
       | some t => some t
       | none => attemptResult svc p b) := by
  cases h1 : attemptResult svc p a <;>
    cases h2 : attemptResult svc p b <;>
      simp [tryModels, h1, h2]

/-- C4: the generator tries "gemini-1.5-flash" then "gemini-pro" on the
prompt-plus-transcript payload and returns the first non-empty extracted
text; extraction takes the direct text field when present and non-empty
and otherwise the newline-joined part texts across candidates; when both
attempts fail or yield empty text the result is None with the generation
failure error. -/
theorem c4_model_order_and_extraction (svc : GenService) (tt : String)
    (htt : ¬(tt = "")) :
    ((generate_summary_with_gemini svc tt).result =
      (match attemptResult svc (PROMPT ++ tt) "gemini-1.5-flash" with
       | some t => some t
       | none => attemptResult svc (PROMPT ++ tt) "gemini-pro")) ∧
    (attemptResult svc (PROMPT ++ tt) "gemini-1.5-flash" = none →
      attemptResult svc (PROMPT ++ tt) "gemini-pro" = none →
      (generate_summary_with_gemini svc tt).result = none ∧
      (generate_summary_with_gemini svc tt).msgs =
        [.error "Gemini summarization failed. Please check your API key and model access."]) ∧
    (∀ resp t, resp.text = some t → ¬(t = "") → extractRespText resp = some t) ∧
    (∀ resp cs, (resp.text = none ∨ resp.text = some "") →
      resp.candidates = some cs → ¬(cs = []) → ¬(collectPartTexts cs = []) →
      extractRespText resp =
        some (String.intercalate "\n" (collectPartTexts cs))) := by
  have hunf : generate_summary_with_gemini svc tt =
      (match (tryModels svc (PROMPT ++ tt) MODEL_NAMES).1 with
       | some t => ⟨some t, (tryModels svc (PROMPT ++ tt) MODEL_NAMES).2, []⟩
       | none => ⟨none, (tryModels svc (PROMPT ++ tt) MODEL_NAMES).2,
           [.error "Gemini summarization failed. Please check your API key and model access."]⟩) := by
    unfold generate_summary_with_gemini
    rw [if_neg htt]
  refine ⟨?_, fun h1 h2 => ?_, fun resp t h1 h2 => ?_, fun resp cs h1 h2 h3 h4 => ?_⟩
  · rw [hunf, show MODEL_NAMES = ["gemini-1.5-flash", "gemini-pro"] from rfl,
      tryModels_two]
    cases hA : attemptResult svc (PROMPT ++ tt) "gemini-1.5-flash" with
    | some t => rfl
    | none =>
      cases hB : attemptResult svc (PROMPT ++ tt) "gemini-pro" <;> rfl
  · have hm : (tryModels svc (PROMPT ++ tt) MODEL_NAMES).1 = none := by
      rw [show MODEL_NAMES = ["gemini-1.5-flash", "gemini-pro"] from rfl,
        tryModels_two, h1, h2]
    rw [hunf, hm]
    exact ⟨rfl, rfl⟩
  · simp [extractRespText, respDirectText, h1, h2]
  · have hdt : respDirectText resp = none := by
      rcases h1 with h | h <;> simp [respDirectText, h]
    cases hcp : collectPartTexts cs with
    | nil => exact absurd hcp h4
    | cons x xs =>
      simp [extractRespText, hdt, respCandidatesText, h2, h3, hcp]

/-- C4 witness: the fast model raises, the legacy model returns non-empty
text, and the generator returns the legacy model's text. -/
theorem c4_witness :
    (generate_summary_with_gemini svcSecondModel "transcript body").result =
      some "second model text" := by
  have h := (c4_model_order_and_extraction svcSecondModel "transcript body"
    (by decide)).1
  rw [h]
  rfl

theorem data_v : "v".data = ['v'] := rfl

theorem data_watch : "/watch".data = ['/', 'w', 'a', 't', 'c', 'h'] := rfl

theorem data_youtu_be : "youtu.be".data = ['y', 'o', 'u', 't', 'u', '.', 'b', 'e'] := rfl

theorem data_www_youtu_be :
    "www.youtu.be".data = ['w', 'w', 'w', '.', 'y', 'o', 'u', 't', 'u', '.', 'b', 'e'] := rfl

theorem data_youtube : "youtube".data = ['y', 'o', 'u', 't', 'u', 'b', 'e'] := rfl

theorem data_shorts : "/shorts/".data = ['/', 's', 'h', 'o', 'r', 't', 's', '/'] := rfl

theorem data_embed : "/embed/".data = ['/', 'e', 'm', 'b', 'e', 'd', '/'] := rfl

theorem dropLeadingChar_eq_self {c : Char} {l : List Char} (h : c ∉ l) :
    dropLeadingChar c l = l := by
  cases l with
  | nil => rfl
  | cons x xs =>
    have hx : ¬(x = c) := by
      rintro rfl
      exact h (List.mem_cons_self x xs)
    rw [dropLeadingChar, if_neg hx]

theorem getV_of_vquery (id : List Char) (h : ∀ c ∈ id, isIdChar c = true)
    (hne : ¬(id = [])) :
    getQueryParamFirst "v".data ('v' :: '=' :: id) = some id := by
  have hamp : splitAllChar '&' id = [id] :=
    splitAllChar_eq_single (idChar_not_mem h (by decide))
  have hrp : replacePlus id = id := replacePlus_eq_self h
  have huq : unquoteList id = id := unquoteList_eq_self h
  have hrpv : replacePlus ['v'] = ['v'] := by decide
  have huqv : unquoteList ['v'] = ['v'] := by decide
  simp [getQueryParamFirst, parse_qsl, splitAllChar, hamp, splitOnFirst_cons,
    splitOnFirst, hne, hrp, huq, hrpv, huqv, data_v]

theorem parse_watch_url (id : List Char) (h : ∀ c ∈ id, isIdChar c = true) :
    urlparseList
      ('h' :: 't' :: 't' :: 'p' :: 's' :: ':' :: '/' :: '/' :: 'w' :: 'w' :: 'w' :: '.' :: 'y' :: 'o' :: 'u' :: 't' :: 'u' :: 'b' :: 'e' :: '.' :: 'c' :: 'o' :: 'm' :: '/' :: 'w' :: 'a' :: 't' :: 'c' :: 'h' :: '?' :: 'v' :: '=' :: id) =
      .ok ⟨['h', 't', 't', 'p', 's'],
           ['w', 'w', 'w', '.', 'y', 'o', 'u', 't', 'u', 'b', 'e', '.', 'c', 'o', 'm'],
           ['/', 'w', 'a', 't', 'c', 'h'], [], 'v' :: '=' :: id, []⟩ := by
  have hhash : splitOnFirst '#' id = none :=
    splitOnFirst_eq_none (idChar_not_mem h (by decide))
  have hq : splitOnFirst '?' id = none :=
    splitOnFirst_eq_none (idChar_not_mem h (by decide))
  have hru : removeUnsafe id = id := removeUnsafe_eq_self h
  simp [urlparseList, urlsplitList, mkSplit, splitParams, splitOnLast, dropC0Space,
    removeUnsafe, splitOnFirst_cons, splitOnFirst, splitNetloc, hru, hhash, hq,
    isSchemeChar]

theorem parse_be_url (id : List Char) (h : ∀ c ∈ id, isIdChar c = true) :
    urlparseList
      ('h' :: 't' :: 't' :: 'p' :: 's' :: ':' :: '/' :: '/' :: 'y' :: 'o' :: 'u' :: 't' :: 'u' :: '.' :: 'b' :: 'e' :: '/' :: id) =
      .ok ⟨['h', 't', 't', 'p', 's'], ['y', 'o', 'u', 't', 'u', '.', 'b', 'e'],
           '/' :: id, [], [], []⟩ := by
  have hrev : ∀ c ∈ id.reverse, isIdChar c = true :=
    fun c hc => h c (List.mem_reverse.mp hc)
  have hsl : splitOnFirst '/' (id.reverse ++ ['/']) = some (id.reverse, []) := by
    rw [splitOnFirst_append_left (idChar_not_mem hrev (by decide))]
    simp [splitOnFirst]
  have hhash : splitOnFirst '#' id = none :=
    splitOnFirst_eq_none (idChar_not_mem h (by decide))
  have hq : splitOnFirst '?' id = none :=
    splitOnFirst_eq_none (idChar_not_mem h (by decide))
  have hsemi : splitOnFirst ';' id = none :=
    splitOnFirst_eq_none (idChar_not_mem h (by decide))
  have hru : removeUnsafe id = id := removeUnsafe_eq_self h
  simp [urlparseList, urlsplitList, mkSplit, splitParams, splitOnLast, dropC0Space,
    removeUnsafe, splitOnFirst_cons, splitOnFirst, splitNetloc, hru, hhash, hq,
    hsemi, hsl, isSchemeChar]

theorem parse_shorts_url (id : List Char) (h : ∀ c ∈ id, isIdChar c = true) :
    urlparseList
      ('h' :: 't' :: 't' :: 'p' :: 's' :: ':' :: '/' :: '/' :: 'w' :: 'w' :: 'w' :: '.' :: 'y' :: 'o' :: 'u' :: 't' :: 'u' :: 'b' :: 'e' :: '.' :: 'c' :: 'o' :: 'm' :: '/' :: 's' :: 'h' :: 'o' :: 'r' :: 't' :: 's' :: '/' :: id) =
      .ok ⟨['h', 't', 't', 'p', 's'],
           ['w', 'w', 'w', '.', 'y', 'o', 'u', 't', 'u', 'b', 'e', '.', 'c', 'o', 'm'],
           '/' :: 's' :: 'h' :: 'o' :: 'r' :: 't' :: 's' :: '/' :: id, [], [], []⟩ := by
  have hrev : ∀ c ∈ id.reverse, isIdChar c = true :=
    fun c hc => h c (List.mem_reverse.mp hc)
  have hsl : splitOnFirst '/' (id.reverse ++ ['/', 's', 't', 'r', 'o', 'h', 's', '/']) =
      some (id.reverse, ['s', 't', 'r', 'o', 'h', 's', '/']) := by
    rw [splitOnFirst_append_left (idChar_not_mem hrev (by decide))]
    simp [splitOnFirst]
  have hhash : splitOnFirst '#' id = none :=
    splitOnFirst_eq_none (idChar_not_mem h (by decide))
  have hq : splitOnFirst '?' id = none :=
    splitOnFirst_eq_none (idChar_not_mem h (by decide))
  have hsemi : splitOnFirst ';' id = none :=
    splitOnFirst_eq_none (idChar_not_mem h (by decide))
  have hru : removeUnsafe id = id := removeUnsafe_eq_self h
  simp [urlparseList, urlsplitList, mkSplit, splitParams, splitOnLast, dropC0Space,
    removeUnsafe, splitOnFirst_cons, splitOnFirst, splitNetloc, hru, hhash, hq,
    hsemi, hsl, isSchemeChar]

theorem parse_embed_url (id : List Char) (h : ∀ c ∈ id, isIdChar c = true) :
    urlparseList
      ('h' :: 't' :: 't' :: 'p' :: 's' :: ':' :: '/' :: '/' :: 'w' :: 'w' :: 'w' :: '.' :: 'y' :: 'o' :: 'u' :: 't' :: 'u' :: 'b' :: 'e' :: '.' :: 'c' :: 'o' :: 'm' :: '/' :: 'e' :: 'm' :: 'b' :: 'e' :: 'd' :: '/' :: id) =
      .ok ⟨['h', 't', 't', 'p', 's'],
           ['w', 'w', 'w', '.', 'y', 'o', 'u', 't', 'u', 'b', 'e', '.', 'c', 'o', 'm'],
           '/' :: 'e' :: 'm' :: 'b' :: 'e' :: 'd' :: '/' :: id, [], [], []⟩ := by
  have hrev : ∀ c ∈ id.reverse, isIdChar c = true :=
    fun c hc => h c (List.mem_reverse.mp hc)
  have hsl : splitOnFirst '/' (id.reverse ++ ['/', 'd', 'e', 'b', 'm', 'e', '/']) =
      some (id.reverse, ['d', 'e', 'b', 'm', 'e', '/']) := by
    rw [splitOnFirst_append_left (idChar_not_mem hrev (by decide))]
    simp [splitOnFirst]
  have hhash : splitOnFirst '#' id = none :=
    splitOnFirst_eq_none (idChar_not_mem h (by decide))
  have hq : splitOnFirst '?' id = none :=
    splitOnFirst_eq_none (idChar_not_mem h (by decide))
  have hsemi : splitOnFirst ';' id = none :=
    splitOnFirst_eq_none (idChar_not_mem h (by decide))
  have hru : removeUnsafe id = id := removeUnsafe_eq_self h
  simp [urlparseList, urlsplitList, mkSplit, splitParams, splitOnLast, dropC0Space,
    removeUnsafe, splitOnFirst_cons, splitOnFirst, splitNetloc, hru, hhash, hq,
    hsemi, hsl, isSchemeChar]

/-- C1: every URL of a supported shape whose embedded identifier is exactly
11 characters of the class letters/digits/underscore/hyphen yields exactly
that identifier, and the two example URLs yield "dQw4w9WgXcQ". -/
theorem c1_supported_shapes_exact (id : String)
    (hchars : ∀ c ∈ id.data, isIdChar c = true)
    (hlen : id.length = 11) :
    get_video_id ("https://www.youtube.com/watch?v=" ++ id) = some id ∧
    get_video_id ("https://youtu.be/" ++ id) = some id ∧
    get_video_id ("https://www.youtube.com/shorts/" ++ id) = some id ∧
    get_video_id ("https://www.youtube.com/embed/" ++ id) = some id ∧
    get_video_id "https://www.youtube.com/watch?v=dQw4w9WgXcQ&t=5s" = some "dQw4w9WgXcQ" ∧
    get_video_id "https://youtu.be/dQw4w9WgXcQ" = some "dQw4w9WgXcQ" := by
  have hlen11 : id.data.length = 11 := hlen
  have hne : ¬(id.data = []) := by
    intro h0
    rw [h0] at hlen11
    cases hlen11
  have hwww : ((hostnameOf
      ['w', 'w', 'w', '.', 'y', 'o', 'u', 't', 'u', 'b', 'e', '.', 'c', 'o', 'm']).getD
        []).map Char.toLower =
      ['w', 'w', 'w', '.', 'y', 'o', 'u', 't', 'u', 'b', 'e', '.', 'c', 'o', 'm'] := by
    decide
  have hbe : ((hostnameOf ['y', 'o', 'u', 't', 'u', '.', 'b', 'e']).getD
        []).map Char.toLower = ['y', 'o', 'u', 't', 'u', '.', 'b', 'e'] := by
    decide
  refine ⟨?_, ?_, ?_, ?_, by decide, by decide⟩
  · have hss : shapeStep
        ['w', 'w', 'w', '.', 'y', 'o', 'u', 't', 'u', 'b', 'e', '.', 'c', 'o', 'm']
        ['/', 'w', 'a', 't', 'c', 'h'] ('v' :: '=' :: id.data) = some id.data := by
      simp [shapeStep, beStep, watchStep, data_youtu_be, data_www_youtu_be,
        data_youtube, data_watch, containsSub, startsWithList,
        getV_of_vquery id.data hchars hne, hlen11]
    unfold get_video_id
    rw [show ("https://www.youtube.com/watch?v=" ++ id).data =
      'h' :: 't' :: 't' :: 'p' :: 's' :: ':' :: '/' :: '/' :: 'w' :: 'w' :: 'w' :: '.' :: 'y' :: 'o' :: 'u' :: 't' :: 'u' :: 'b' :: 'e' :: '.' :: 'c' :: 'o' :: 'm' :: '/' :: 'w' :: 'a' :: 't' :: 'c' :: 'h' :: '?' :: 'v' :: '=' :: id.data
      from rfl]
    rw [parse_watch_url id.data hchars]
    simp [hwww, hss, strMk_data]
  · have hdl : dropLeadingChar '/' id.data = id.data :=
      dropLeadingChar_eq_self (idChar_not_mem hchars (by decide))
    have htu : takeUntilChar '/' id.data = id.data :=
      takeUntilChar_eq_self (idChar_not_mem hchars (by decide))
    have hss : shapeStep ['y', 'o', 'u', 't', 'u', '.', 'b', 'e'] ('/' :: id.data) []
        = some id.data := by
      simp [shapeStep, beStep, data_youtu_be, data_www_youtu_be, dropLeadingChar,
        hdl, htu, hlen11]
    unfold get_video_id
    rw [show ("https://youtu.be/" ++ id).data =
      'h' :: 't' :: 't' :: 'p' :: 's' :: ':' :: '/' :: '/' :: 'y' :: 'o' :: 'u' :: 't' :: 'u' :: '.' :: 'b' :: 'e' :: '/' :: id.data
      from rfl]
    rw [parse_be_url id.data hchars]
    simp [hbe, hss, strMk_data]
  · have hsp : splitAllChar '/' id.data = [id.data] :=
      splitAllChar_eq_single (idChar_not_mem hchars (by decide))
    have hss : shapeStep
        ['w', 'w', 'w', '.', 'y', 'o', 'u', 't', 'u', 'b', 'e', '.', 'c', 'o', 'm']
        ('/' :: 's' :: 'h' :: 'o' :: 'r' :: 't' :: 's' :: '/' :: id.data) []
        = some id.data := by
      simp [shapeStep, beStep, watchStep, pathSegStep, data_youtu_be,
        data_www_youtu_be, data_youtube, data_watch, data_shorts, data_embed,
        containsSub, startsWithList, splitAllChar, hsp, hlen11]
    unfold get_video_id
    rw [show ("https://www.youtube.com/shorts/" ++ id).data =
      'h' :: 't' :: 't' :: 'p' :: 's' :: ':' :: '/' :: '/' :: 'w' :: 'w' :: 'w' :: '.' :: 'y' :: 'o' :: 'u' :: 't' :: 'u' :: 'b' :: 'e' :: '.' :: 'c' :: 'o' :: 'm' :: '/' :: 's' :: 'h' :: 'o' :: 'r' :: 't' :: 's' :: '/' :: id.data
      from rfl]
    rw [parse_shorts_url id.data hchars]
    simp [hwww, hss, strMk_data]
  · have hsp : splitAllChar '/' id.data = [id.data] :=
      splitAllChar_eq_single (idChar_not_mem hchars (by decide))
    have hss : shapeStep
        ['w', 'w', 'w', '.', 'y', 'o', 'u', 't', 'u', 'b', 'e', '.', 'c', 'o', 'm']
        ('/' :: 'e' :: 'm' :: 'b' :: 'e' :: 'd' :: '/' :: id.data) []
        = some id.data := by
      simp [shapeStep, beStep, watchStep, pathSegStep, data_youtu_be,
        data_www_youtu_be, data_youtube, data_watch, data_shorts, data_embed,
        containsSub, startsWithList, splitAllChar, hsp, hlen11]
    unfold get_video_id
    rw [show ("https://www.youtube.com/embed/" ++ id).data =
      'h' :: 't' :: 't' :: 'p' :: 's' :: ':' :: '/' :: '/' :: 'w' :: 'w' :: 'w' :: '.' :: 'y' :: 'o' :: 'u' :: 't' :: 'u' :: 'b' :: 'e' :: '.' :: 'c' :: 'o' :: 'm' :: '/' :: 'e' :: 'm' :: 'b' :: 'e' :: 'd' :: '/' :: id.data
      from rfl]
    rw [parse_embed_url id.data hchars]
    simp [hwww, hss, strMk_data]

/-- C1 witness: the four shapes instantiated at the identifier
"dQw4w9WgXcQ". -/
theorem c1_witness :
    get_video_id ("https://www.youtube.com/watch?v=" ++ "dQw4w9WgXcQ") =
      some "dQw4w9WgXcQ" ∧
    get_video_id ("https://youtu.be/" ++ "dQw4w9WgXcQ") = some "dQw4w9WgXcQ" ∧
    get_video_id ("https://www.youtube.com/shorts/" ++ "dQw4w9WgXcQ") =
      some "dQw4w9WgXcQ" ∧
    get_video_id ("https://www.youtube.com/embed/" ++ "dQw4w9WgXcQ") =
      some "dQw4w9WgXcQ" := by
  have h := c1_supported_shapes_exact "dQw4w9WgXcQ" (by decide) (by decide)
  exact ⟨h.1, h.2.1, h.2.2.1, h.2.2.2.1⟩

end YTS
